import Mathlib

set_option maxRecDepth 8000

/-!
Verification development for the DeepSeek translate browser extension.

The two core pieces are embedded from the source:
  * the background message relay `src/background/messages/translate.ts`
    (`relayHandler` below), and
  * the content-script selection/popup UI state machine
    `src/contents/translate.jsx` (`UiState` and its transition functions).

JavaScript runtime values that flow through the relay (parsed JSON response
bodies, truthiness tests, property accesses) are modelled by the `Json`
inductive together with helpers that mirror the JavaScript semantics the
source relies on (`jsTruthy`, `jsGetField`, optional chaining as `Option.bind`,
array/string `.length` and `[0]`, template-literal stringification).

The built-in `JSON.parse` is modelled by `jsonParse`, a fuel-based
recursive-descent parser. Model restrictions (documented on the definition):
number literals are restricted to integers, `\u` escapes to non-surrogate
code points. No theorem below depends on inputs outside this fragment.

JavaScript exceptions matter to the relay: a property read on a nullish
receiver throws a `TypeError`, and the relay's 2xx extraction can throw out
of both its guard and its fallback into the handler's outer `catch`. The
extraction is therefore `Except`-valued (`extract2xx`), with the
host-defined exception texts modelled by named constants
(`typeErrorMessage`, `jsonRejectMessage`) that no theorem's truth depends
on.
-/

/-- A JavaScript JSON value (the possible results of `JSON.parse` /
`response.json()`). There is no `undefined` constructor: an absent value is
represented as `Option.none` at use sites, matching how the source only ever
meets `undefined` through failed property lookups. -/
inductive Json where
  | null : Json
  | bool : Bool → Json
  | num : Int → Json
  | str : String → Json
  | arr : List Json → Json
  | obj : List (String × Json) → Json

/-- JavaScript truthiness of a JSON value: `null`, `false`, `0` and `""` are
falsy; every array and object is truthy. -/
def jsTruthy : Json → Bool
  | Json.null => false
  | Json.bool b => b
  | Json.num n => n != 0
  | Json.str s => s != ""
  | Json.arr _ => true
  | Json.obj _ => true

/-- Truthiness of a possibly-`undefined` value (`undefined` is falsy). -/
def optTruthy : Option Json → Bool
  | some v => jsTruthy v
  | none => false

/-- JavaScript property access `v[k]` for a string key on a non-nullish
receiver: defined (as the last binding, matching `JSON.parse` duplicate-key
semantics) only on objects; on booleans, numbers and strings the properties
the source reads are `undefined`. In JavaScript a read on `null` or
`undefined` throws a `TypeError`; the relay's two unguarded such reads are
modelled explicitly (`relayProcess` for `errorData.error`, `extract2xx` for
`choices[0].message`), and every remaining call site has a non-nullish
receiver (short-circuit/truthiness-guarded) or carries `?.` semantics,
where `none` = `undefined` is faithful. -/
def jsGetField : Json → String → Option Json
  | Json.obj fields, k => (fields.reverse.find? (fun p => p.1 == k)).map (fun p => p.2)
  | _, _ => none

/-- Conservative `.length`, defined on arrays and strings only. This is NOT
the handler's read — JavaScript `.length` on an object reads its own
`length` property, modelled by `jsLenVal` below, which the handler uses.
This version survives only inside the statement predicates
`hasExpectedPath`/`jsLenPos`, which restrict a theorem's hypotheses to
array/string-shaped `choices`. -/
def jsLen : Json → Option Nat
  | Json.arr xs => some xs.length
  | Json.str s => some s.length
  | _ => none

/-- Conservative `v[0]` indexing, defined on arrays and strings only. This
is NOT the handler's read — JavaScript `v[0]` on an object reads its own
`"0"` property, modelled by `jsIndexVal` below, which the handler uses.
This version survives only inside the statement predicates
`hasExpectedPath`/`choiceContent` (hypotheses restricted to array/string
`choices`). -/
def jsIndex : Json → Nat → Option Json
  | Json.arr xs, i => xs.get? i
  | Json.str s, i => (s.data.get? i).map (fun c => Json.str (String.mk [c]))
  | _, _ => none

/-- `o.length > 0` over the conservative `jsLen` (statement-predicate use
only; the handler compares via `jsGtZero (jsLenVal choices)`). -/
def jsLenPos (o : Option Json) : Bool :=
  match o with
  | some v =>
    match jsLen v with
    | some n => n != 0
    | none => false
  | none => false

mutual

/-- JavaScript template-literal stringification of a JSON value
(arrays stringify as `Array.prototype.join(",")` of their elements). -/
def jsToString : Json → String
  | Json.null => "null"
  | Json.bool b => cond b "true" "false"
  | Json.num n => toString n
  | Json.str s => s
  | Json.obj _ => "[object Object]"
  | Json.arr xs => String.intercalate "," (jsJoinItems xs)

/-- Elements of an array as joined by `Array.prototype.join`: `null` joins
as the empty string. -/
def jsJoinItems : List Json → List String
  | [] => []
  | Json.null :: vs => "" :: jsJoinItems vs
  | v :: vs => jsToString v :: jsJoinItems vs

end

/-- Whitespace as stripped by JavaScript `String.prototype.trim`
(ASCII whitespace, NBSP, BOM and the line separators; more exotic Unicode
space separators are outside the model). -/
def isJsTrimWs (c : Char) : Bool :=
  c = ' ' || c = '\t' || c = '\n' || c = '\x0d' || c = '\x0b' || c = '\x0c' ||
  c = '\xa0' || c.toNat = 0xfeff || c.toNat = 0x2028 || c.toNat = 0x2029

/-- JavaScript `s.trim()`. -/
def jsTrim (s : String) : String :=
  String.mk (((s.data.dropWhile isJsTrimWs).reverse.dropWhile isJsTrimWs).reverse)

/-- Hexadecimal digit value, for `\u` escapes. -/
def hexVal (c : Char) : Option Nat :=
  if '0' ≤ c ∧ c ≤ '9' then some (c.toNat - 48)
  else if 'a' ≤ c ∧ c ≤ 'f' then some (c.toNat - 87)
  else if 'A' ≤ c ∧ c ≤ 'F' then some (c.toNat - 55)
  else none

/-- JSON insignificant whitespace. -/
def isJsonWs (c : Char) : Bool := c = ' ' || c = '\t' || c = '\n' || c = '\r'

/-- Drop leading JSON whitespace. -/
def skipWs : List Char → List Char
  | [] => []
  | c :: cs => if isJsonWs c then skipWs cs else c :: cs

/-- Parse the body of a JSON string literal (after the opening quote),
returning the string and the input remaining after the closing quote.
Model restriction: `\u` escapes are accepted only below the surrogate range. -/
def parseStringBody : Nat → List Char → List Char → Option (String × List Char)
  | 0, _, _ => none
  | _, [], _ => none
  | fuel+1, c :: cs, acc =>
    if c = '"' then some (String.mk acc.reverse, cs)
    else if c.toNat < 32 then none
    else if c = '\\' then
      match cs with
      | [] => none
      | e :: cs2 =>
        if e = '"' then parseStringBody fuel cs2 ('"' :: acc)
        else if e = '\\' then parseStringBody fuel cs2 ('\\' :: acc)
        else if e = '/' then parseStringBody fuel cs2 ('/' :: acc)
        else if e = 'b' then parseStringBody fuel cs2 ('\x08' :: acc)
        else if e = 'f' then parseStringBody fuel cs2 ('\x0c' :: acc)
        else if e = 'n' then parseStringBody fuel cs2 ('\n' :: acc)
        else if e = 'r' then parseStringBody fuel cs2 ('\x0d' :: acc)
        else if e = 't' then parseStringBody fuel cs2 ('\t' :: acc)
        else if e = 'u' then
          match cs2 with
          | a :: b :: c3 :: d :: cs3 =>
            match hexVal a, hexVal b, hexVal c3, hexVal d with
            | some ha, some hb, some hc, some hd =>
              let n := ((ha * 16 + hb) * 16 + hc) * 16 + hd
              if n < 0xd800 then parseStringBody fuel cs3 (Char.ofNat n :: acc)
              else none
            | _, _, _, _ => none
          | _ => none
        else none
    else parseStringBody fuel cs (c :: acc)

/-- Split a leading run of decimal digits. -/
def takeDigits : List Char → List Char × List Char
  | [] => ([], [])
  | c :: cs =>
    if '0' ≤ c ∧ c ≤ '9' then
      let p := takeDigits cs
      (c :: p.1, p.2)
    else ([], c :: cs)

/-- Decimal digits to a natural number. -/
def digitsToNat (ds : List Char) : Nat :=
  ds.foldl (fun n c => n * 10 + (c.toNat - 48)) 0

/-- One JSON value plus the remaining input. Fuel-based recursive descent;
arrays and objects parse their tail by re-entering this function on the
remaining input with the opening bracket re-prepended, so the whole parser
is a single structurally recursive function (and therefore reduces in the
kernel). Model restriction: number literals are integers only (no fraction
or exponent). -/
def parseJsonVal : Nat → List Char → Option (Json × List Char)
  | 0, _ => none
  | fuel+1, cs0 =>
    match skipWs cs0 with
    | [] => none
    | c :: cs =>
      if c = 'n' then
        match cs with
        | 'u' :: 'l' :: 'l' :: r => some (Json.null, r)
        | _ => none
      else if c = 't' then
        match cs with
        | 'r' :: 'u' :: 'e' :: r => some (Json.bool true, r)
        | _ => none
      else if c = 'f' then
        match cs with
        | 'a' :: 'l' :: 's' :: 'e' :: r => some (Json.bool false, r)
        | _ => none
      else if c = '"' then
        match parseStringBody (fuel+1) cs [] with
        | some (s, r) => some (Json.str s, r)
        | none => none
      else if c = '[' then
        match skipWs cs with
        | ']' :: r => some (Json.arr [], r)
        | _ =>
          match parseJsonVal fuel cs with
          | some (v, r) =>
            match skipWs r with
            | ',' :: r2 =>
              match parseJsonVal fuel ('[' :: r2) with
              | some (Json.arr vs, r3) => some (Json.arr (v :: vs), r3)
              | _ => none
            | ']' :: r2 => some (Json.arr [v], r2)
            | _ => none
          | none => none
      else if c = '\x7b' then
        match skipWs cs with
        | '\x7d' :: r => some (Json.obj [], r)
        | '"' :: r =>
          match parseStringBody (fuel+1) r [] with
          | some (k, r2) =>
            match skipWs r2 with
            | ':' :: r3 =>
              match parseJsonVal fuel r3 with
              | some (v, r4) =>
                match skipWs r4 with
                | ',' :: r5 =>
                  match parseJsonVal fuel ('\x7b' :: r5) with
                  | some (Json.obj fs, r6) => some (Json.obj ((k, v) :: fs), r6)
                  | _ => none
                | '\x7d' :: r5 => some (Json.obj [(k, v)], r5)
                | _ => none
              | none => none
            | _ => none
          | none => none
        | _ => none
      else if c = '-' then
        match takeDigits cs with
        | ([], _) => none
        | (ds, rest) =>
          if ds.length > 1 ∧ ds.head? = some '0' then none
          else
            match rest with
            | '.' :: _ => none
            | 'e' :: _ => none
            | 'E' :: _ => none
            | _ => some (Json.num (-(digitsToNat ds : Int)), rest)
      else if '0' ≤ c ∧ c ≤ '9' then
        match takeDigits (c :: cs) with
        | ([], _) => none
        | (ds, rest) =>
          if ds.length > 1 ∧ ds.head? = some '0' then none
          else
            match rest with
            | '.' :: _ => none
            | 'e' :: _ => none
            | 'E' :: _ => none
            | _ => some (Json.num (digitsToNat ds : Int), rest)
      else none

/-- Model of the JavaScript built-in `JSON.parse` (restricted to the JSON
fragment documented on `parseJsonVal`): `none` models a thrown
`SyntaxError`. -/
def jsonParse (s : String) : Option Json :=
  match parseJsonVal (2 * s.length + 16) s.data with
  | some (v, rest) => if skipWs rest = [] then some v else none
  | none => none

/-!
## Background translation relay — `src/background/messages/translate.ts`
-/

/-- The `apiConfig` record sent with a translation request. Fields the user
may leave unset are `Option`s (`none` models `undefined`/absent). -/
structure ApiConfig where
  apiKey : Option String
  apiUrl : Option String
  model : Option String

/-- The message body `{ text, apiConfig }` received by the relay handler. -/
structure TranslateBody where
  text : String
  apiConfig : Option ApiConfig

/-- The HTTP request the relay hands to `fetch` (url, bearer key, model and
the two-message exchange; `temperature: 0.3` and
`response_format: {type: "json_object"}` are fixed constants of the source
and carry no information the claims need, so they are not modelled as
fields). -/
structure FetchRequest where
  url : String
  apiKey : String
  model : String
  systemPrompt : String
  userText : String
  maxTokens : Nat

/-- Outcome of `fetch` as the handler consumes it: `ok`/`statusText` from the
response object, and `body` the result of `await response.json()`
(`none` models a rejected `response.json()` on a non-JSON body). -/
structure FetchResult where
  ok : Bool
  statusText : String
  body : Option Json

/-- The `{success, result?, error?}` object the relay sends back. The source
sends `result` only with `success: true` and `error` only with
`success: false`; both are kept as `Option`s here precisely so that this
exclusivity is a provable property rather than a notational consequence. -/
structure RelayResponse where
  success : Bool
  result : Option Json
  error : Option String

/-- `const isChineseText = /[一-龥]/.test(text)` in the relay. The
regex matches one UTF-16 code unit in the range; since the range lies inside
the BMP, this is equivalent to the test on Unicode scalar values used here. -/
def isChineseTextBg (text : String) : Bool :=
  text.data.any (fun c => decide (0x4e00 ≤ c.toNat) && decide (c.toNat ≤ 0x9fa5))

/-- System instruction used when the input text is detected as Chinese. -/
def systemPromptChinese : String :=
  "你是一个专业的翻译助手。请将用户提供的中文文本翻译成英文，保持文本的原意和语气。只返回翻译结果，不需要解释。请以JSON格式输出，格式为：\x7b\"translation\": \"翻译后的文本\"\x7d"

/-- System instruction used when the input text is detected as non-Chinese. -/
def systemPromptNonChinese : String :=
  "你是一个专业的翻译助手。请将用户提供的文本翻译成中文，保持文本的原意和语气。只返回翻译结果，不需要解释。请以JSON格式输出，格式为：\x7b\"translation\": \"翻译后的文本\"\x7d"

/-- `const systemPrompt = isChineseText ? ... : ...` in the relay. -/
def chooseSystemPrompt (text : String) : String :=
  if isChineseTextBg text then systemPromptChinese else systemPromptNonChinese

/-- Default endpoint used when `apiConfig.apiUrl` is falsy. -/
def defaultApiUrl : String := "https://api.deepseek.com/v1/chat/completions"

/-- JavaScript `v || d` for an optional string: the default replaces both an
absent and an empty (falsy) string. -/
def orDefault (v : Option String) (d : String) : String :=
  match v with
  | some s => if s == "" then d else s
  | none => d

/-- The request built by the relay's `fetch(apiUrl, {...})` call. -/
def buildFetchRequest (text : String) (cfg : ApiConfig) (key : String) : FetchRequest :=
  { url := orDefault cfg.apiUrl defaultApiUrl
    apiKey := key
    model := orDefault cfg.model "deepseek-chat"
    systemPrompt := chooseSystemPrompt text
    userText := text
    maxTokens := 2048 }

/-- `errorData.error?.message` for a non-`null` `errorData`: optional
chaining is `Option.bind`, since property access on a non-object already
yields `undefined` in `jsGetField`. A `null` `errorData` makes the
unguarded `.error` read itself throw; `relayProcess` models that throw
before consulting this chain. -/
def errMessageChain (j : Json) : Option Json :=
  (jsGetField j "error").bind (fun e => jsGetField e "message")

/-- `data.choices[0].message.content` as an optional value, over the
conservative array/string indexing (statement-predicate use only). -/
def choiceContent (data : Json) : Option Json :=
  ((jsGetField data "choices").bind (fun c => jsIndex c 0)).bind
    (fun c0 => (jsGetField c0 "message").bind (fun m => jsGetField m "content"))

/-- The guard
`data && data.choices && data.choices.length > 0 && data.choices[0].message
&& data.choices[0].message.content` of the relay's happy path, over the
conservative `jsLenPos`/`jsIndex`: it recognises the guard's array/string
`choices` shapes and is used only to state theorem hypotheses restricted
to them. The handler itself evaluates the guard through `extract2xx`
(`hasExpectedPathT` is its faithful value when nothing throws). -/
def hasExpectedPath (data : Json) : Bool :=
  jsTruthy data &&
  optTruthy (jsGetField data "choices") &&
  jsLenPos (jsGetField data "choices") &&
  optTruthy ((jsGetField data "choices").bind (fun c => jsIndex c 0) |>.bind
    (fun c0 => jsGetField c0 "message")) &&
  optTruthy (choiceContent data)

/-- True exactly on the JSON value `null`. -/
def jsIsNull : Json → Bool
  | Json.null => true
  | _ => false

/-- Model of the host's `TypeError` message for a property read on a
nullish receiver; the exact text is host-defined and no theorem's truth
depends on it. -/
def typeErrorMessage (prop : String) : String :=
  "TypeError: cannot read property " ++ prop ++ " of null or undefined"

/-- `ToNumber(s) > 0` for a string-valued `.length`: after trimming, an
optionally `+`-signed digit string with positive value; other strings are
`NaN` or non-positive and compare `false` (model restriction: fraction,
exponent, hex and `Infinity` forms are outside the model). -/
def numStrPos (s : String) : Bool :=
  match (jsTrim s).data with
  | [] => false
  | '+' :: ds =>
    !ds.isEmpty && ds.all (fun c => decide ('0' ≤ c) && decide (c ≤ '9')) &&
      digitsToNat ds != 0
  | ds =>
    ds.all (fun c => decide ('0' ≤ c) && decide (c ≤ '9')) && digitsToNat ds != 0

/-- JavaScript `v > 0` for a possibly-`undefined` `.length` value:
`undefined` and `NaN` compare `false`; `null`, booleans and numbers coerce
numerically; arrays coerce through their join, objects to
`[object Object]` (`NaN`). -/
def jsGtZero : Option Json → Bool
  | none => false
  | some Json.null => false
  | some (Json.bool b) => b
  | some (Json.num n) => decide (0 < n)
  | some (Json.str s) => numStrPos s
  | some (Json.arr xs) => numStrPos (String.intercalate "," (jsJoinItems xs))
  | some (Json.obj _) => false

/-- JavaScript `.length` as the relay reads it: the element count of an
array, the length of a string, the own `length` property of an object, and
`undefined` on the remaining primitives (the receiver is
truthiness-guarded at every use site, so never nullish). -/
def jsLenVal : Json → Option Json
  | Json.arr xs => some (Json.num xs.length)
  | Json.str s => some (Json.num s.length)
  | Json.obj fields => jsGetField (Json.obj fields) "length"
  | _ => none

/-- JavaScript `v[i]` as the relay reads it: array element, one-char string
for strings, the own string-keyed (`"0"`) property of an object, and
`undefined` on the remaining primitives (the receiver is
truthiness-guarded at every use site, so never nullish). -/
def jsIndexVal : Json → Nat → Option Json
  | Json.arr xs, i => xs.get? i
  | Json.str s, i => (s.data.get? i).map (fun c => Json.str (String.mk [c]))
  | Json.obj fields, i => jsGetField (Json.obj fields) (toString i)
  | _, _ => none

/-- The fallback's `data.choices[0].message?.content || "获取翻译结果失败"` for
a non-nullish `choices[0]` (the `?.` makes a nullish `message` read as
`undefined`; `jsGetField` on a non-object primitive is already
`undefined`). -/
def fallbackContentOf (c0 : Json) : Json :=
  match (jsGetField c0 "message").bind (fun m => jsGetField m "content") with
  | some v => if jsTruthy v then v else Json.str "获取翻译结果失败"
  | none => Json.str "获取翻译结果失败"

/-- The relay's 2xx extraction of `translatedText`, with thrown exceptions
made explicit: `Except.error` is a `TypeError` escaping both the guard and
the inner `catch`'s fallback to the handler's outer `catch`, which happens
exactly when the `length > 0` check passes but `choices[0]` is nullish —
then the `.message` read throws in the guard and again in the fallback.
Every other guard failure reaches the fallback benignly: a falsy prefix
yields the fixed string, a falsy or absent `message`/`content` yields
`choices[0].message?.content || <fixed>`, a truthy non-string `content`
makes `content.trim()` throw into the inner `catch` whose fallback returns
that same content, and a `JSON.parse` failure of the trimmed content is
non-fatal and keeps the trimmed content (`jsonResponse &&
jsonResponse.translation` short-circuits, so a falsy parse result never
has its `translation` read). -/
def extract2xx (data : Json) : Except String Json :=
  if jsTruthy data = false then Except.ok (Json.str "获取翻译结果失败")
  else
    match jsGetField data "choices" with
    | none => Except.ok (Json.str "获取翻译结果失败")
    | some choices =>
      if jsTruthy choices = false then Except.ok (Json.str "获取翻译结果失败")
      else if jsGtZero (jsLenVal choices) = false then
        Except.ok (Json.str "获取翻译结果失败")
      else
        match jsIndexVal choices 0 with
        | none => Except.error (typeErrorMessage "message")
        | some c0 =>
          if jsIsNull c0 then Except.error (typeErrorMessage "message")
          else
            match jsGetField c0 "message" with
            | none => Except.ok (fallbackContentOf c0)
            | some message =>
              if jsTruthy message = false then Except.ok (fallbackContentOf c0)
              else
                match jsGetField message "content" with
                | none => Except.ok (fallbackContentOf c0)
                | some content =>
                  if jsTruthy content = false then Except.ok (fallbackContentOf c0)
                  else
                    match content with
                    | Json.str rawContent =>
                      let contentT := jsTrim rawContent
                      match jsonParse contentT with
                      | some jsonResponse =>
                        if jsTruthy jsonResponse = false then
                          Except.ok (Json.str contentT)
                        else
                          match jsGetField jsonResponse "translation" with
                          | some t =>
                            if jsTruthy t then Except.ok t
                            else Except.ok (Json.str contentT)
                          | none => Except.ok (Json.str contentT)
                      | none => Except.ok (Json.str contentT)
                    | _ => Except.ok content

/-- Model of the message of the exception thrown by the host's
`response.json()` on a non-JSON body; the exact text is host-defined and no
theorem depends on it. -/
def jsonRejectMessage : String := "Unexpected end of JSON input"

/-- The relay's handling of the `fetch` outcome. Non-2xx: a `null` JSON
body makes the unguarded `errorData.error` read throw a `TypeError` whose
message the outer `catch` sends; otherwise the branch rethrows
`API错误: ${errorData.error?.message || response.statusText}`, caught by
the outer `catch` and sent as a failure. 2xx: the extraction's value is
sent as a success, and an extraction `TypeError` reaches the outer `catch`
as a failure. A rejected `response.json()` propagates to the outer `catch`
on either branch. -/
def relayProcess (r : FetchResult) : RelayResponse :=
  if r.ok = false then
    match r.body with
    | some errorData =>
      if jsIsNull errorData then
        { success := false, result := none, error := some (typeErrorMessage "error") }
      else
        let m :=
          match errMessageChain errorData with
          | some v => if jsTruthy v then jsToString v else r.statusText
          | none => r.statusText
        { success := false, result := none, error := some ("API错误: " ++ m) }
    | none => { success := false, result := none, error := some jsonRejectMessage }
  else
    match r.body with
    | some data =>
      match extract2xx data with
      | Except.ok t => { success := true, result := some t, error := none }
      | Except.error msg => { success := false, result := none, error := some msg }
    | none => { success := false, result := none, error := some jsonRejectMessage }

/-- The response sent on `!apiConfig || !apiConfig.apiKey`. -/
def configErrorResponse : RelayResponse :=
  { success := false, result := none, error := some "缺少API密钥配置" }

/-- The relay handler of `src/background/messages/translate.ts`, as a
function of the host's `fetch`. Besides the response it sends, it returns
the list of outbound HTTP requests it issued. -/
def relayHandler (fetch : FetchRequest → FetchResult) (body : TranslateBody) :
    RelayResponse × List FetchRequest :=
  match body.apiConfig with
  | none => (configErrorResponse, [])
  | some cfg =>
    match cfg.apiKey with
    | none => (configErrorResponse, [])
    | some key =>
      if key == "" then (configErrorResponse, [])
      else
        let req := buildFetchRequest body.text cfg key
        (relayProcess (fetch req), [req])

/-- `!apiConfig || !apiConfig.apiKey`: the api key is absent or empty. -/
def apiKeyMissing : Option ApiConfig → Bool
  | none => true
  | some cfg =>
    match cfg.apiKey with
    | none => true
    | some k => k == ""

/-!
## Selection/popup UI state machine — `src/contents/translate.jsx`

The component's `useState` fields, together with the
`isOutsideClickProcessing` ref and whether the document listeners of the
enable/disable `useEffect` are attached, form the state. Event handlers are
embedded as state-transition functions; a `setState` call becomes a record
update, a deferred update (`requestAnimationFrame`, promise resolution) is
the update applied when that deferred step runs. `translatedText` is kept as
a `Json` value because `setTranslatedText(resp.result)` stores whatever JS
value the relay sent. Popup coordinates are modelled as integers (their
exact values never matter to the properties below).
-/

/-- A popup/button position `{x, y}`. -/
structure PopupPos where
  x : Int
  y : Int
deriving DecidableEq

/-- The component state of `TranslateContent`. -/
structure UiState where
  isButtonVisible : Bool
  isResultVisible : Bool
  selectedText : String
  position : PopupPos
  translatedText : Json
  isLoading : Bool
  error : Option String
  isTranslating : Bool
  copied : Bool
  expandSource : Bool
  expandTranslation : Bool
  outsideClickProcessing : Bool
  listenersAttached : Bool

/-- The initial defaults of every `useState` field (and of the
`isOutsideClickProcessing` ref); listeners start detached until the first
effect run. -/
def initialUiState : UiState :=
  { isButtonVisible := false
    isResultVisible := false
    selectedText := ""
    position := { x := 0, y := 0 }
    translatedText := Json.str ""
    isLoading := false
    error := none
    isTranslating := false
    copied := false
    expandSource := false
    expandTranslation := false
    outsideClickProcessing := false
    listenersAttached := false }

/-- `const isChineseText = (text) => /[一-龥]/.test(text)` of the content
script (same remark on UTF-16 vs scalar values as for `isChineseTextBg`). -/
def isChineseText (text : String) : Bool :=
  text.data.any (fun c => decide (0x4e00 ≤ c.toNat) && decide (c.toNat ≤ 0x9fa5))

/-- `const buttonText = isChinese ? "翻译为英文" : "翻译为中文"`. -/
def buttonText (selectedText : String) : String :=
  if isChineseText selectedText then "翻译为英文" else "翻译为中文"

/-- `closeResult`: the close-button handler of the result popup. -/
def closeResult (s : UiState) : UiState :=
  { s with
    isResultVisible := false
    translatedText := Json.str ""
    error := none
    isTranslating := false
    copied := false
    expandSource := false
    expandTranslation := false }

/-- The synchronous prefix of `translateText` (before the `await`):
`setIsLoading(true); setError(null); setCopied(false)`. -/
def translateTextStart (s : UiState) : UiState :=
  { s with isLoading := true, error := none, copied := false }

/-- The continuation of `translateText` once `sendToBackground` resolves:
a truthy `resp.error` is rethrown and caught (`setError`), else a truthy
`resp.result` is stored (`setTranslatedText`), else a generic failure is
thrown and caught; the `finally` clears `isLoading`. The source applies
this continuation unconditionally — there is no check that the popup that
issued the request is still open. -/
def translateTextResolve (resp : RelayResponse) (s : UiState) : UiState :=
  let s1 :=
    match resp.error with
    | some e =>
      if e == "" then
        match resp.result with
        | some r =>
          if jsTruthy r then { s with translatedText := r }
          else { s with error := some "翻译失败: 未能获取到翻译结果" }
        | none => { s with error := some "翻译失败: 未能获取到翻译结果" }
      else { s with error := some ("翻译失败: " ++ e) }
    | none =>
      match resp.result with
      | some r =>
        if jsTruthy r then { s with translatedText := r }
        else { s with error := some "翻译失败: 未能获取到翻译结果" }
      | none => { s with error := some "翻译失败: 未能获取到翻译结果" }
  { s1 with isLoading := false }

/-- `handleTranslate`: sets the translating flag, swaps the button for the
popup, and starts `translateText` (its synchronous prefix). -/
def handleTranslate (s : UiState) : UiState :=
  translateTextStart
    { s with isTranslating := true, isButtonVisible := false, isResultVisible := true }

/-- The inputs of one `mousedown` event as `handleClickOutside` inspects
them: whether the composed path hits the trigger button, and the current
`window.getSelection().toString()`. -/
structure ClickEvent where
  pathHitsButton : Bool
  selectionText : String
deriving DecidableEq

/-- `handleClickOutside`: returns immediately when the feature is disabled;
otherwise a set `isOutsideClickProcessing` ref makes the event a no-op, else
the ref is set (its reset arrives via a 100 ms `setTimeout`, modelled by the
separate `releaseOutsideClickFlag` step) and the button is hidden (via
`requestAnimationFrame`, applied here as the deferred update) only when the
click is off the button, the selection is empty, and neither a translation
nor the popup is active. -/
def handleClickOutside (enabled : Bool) (ev : ClickEvent) (s : UiState) : UiState :=
  if enabled = false then s
  else if s.outsideClickProcessing then s
  else
    let s1 := { s with outsideClickProcessing := true }
    if ev.pathHitsButton then s1
    else if jsTrim ev.selectionText == "" && !s1.isTranslating && !s1.isResultVisible then
      { s1 with isButtonVisible := false }
    else s1

/-- The 100 ms `setTimeout` delay after which the processing ref resets. -/
def outsideClickResetDelayMs : Nat := 100

/-- The `setTimeout` callback scheduled in `handleClickOutside`'s `finally`:
`isOutsideClickProcessing.current = false`. -/
def releaseOutsideClickFlag (s : UiState) : UiState :=
  { s with outsideClickProcessing := false }

/-- The enable/disable `useEffect` body: when enabled it (re)installs the two
document listeners; when disabled the previous effect's cleanup has removed
them and the else-branch clears the button, popup and translating flags. -/
def applyEnabledEffect (enabled : Bool) (s : UiState) : UiState :=
  if enabled then { s with listenersAttached := true }
  else
    { s with
      listenersAttached := false
      isButtonVisible := false
      isResultVisible := false
      isTranslating := false }

/-- `if (!isTranslateEnabled) return null` together with
`if (!isButtonVisible && !isResultVisible) return null`: the component
renders nothing. -/
def rendersNothing (enabled : Bool) (s : UiState) : Bool :=
  !enabled || (!s.isButtonVisible && !s.isResultVisible)

/-- The spec's `Idle` state: neither the trigger button nor the popup is
shown. -/
def isIdle (s : UiState) : Bool :=
  !s.isButtonVisible && !s.isResultVisible

/-!
## Shared concrete inputs and helper lemmas
-/

/-- A well-formed request body with a non-empty api key, for witnesses. -/
def validCfg : ApiConfig := { apiKey := some "key", apiUrl := none, model := none }

/-- A request body carrying `validCfg`. -/
def validBody : TranslateBody := { text := "hi", apiConfig := some validCfg }

/-- A fetch stub; used where a handler run must be exhibited concretely. -/
def stubFetch : FetchRequest → FetchResult :=
  fun _ => { ok := true, statusText := "OK", body := none }

/-- A successful property lookup proves the receiver was an object, hence
truthy. -/
theorem jsGetField_some_truthy {j : Json} {k : String} {v : Json}
    (h : jsGetField j k = some v) : jsTruthy j = true := by
  cases j <;> simp [jsGetField, jsTruthy] at h ⊢

/-- A truthy value is not `null`. -/
theorem jsTruthy_not_null {j : Json} (h : jsTruthy j = true) : jsIsNull j = false := by
  cases j <;> simp_all [jsTruthy, jsIsNull]

/-- The conservative array/string length predicate implies the faithful
`.length > 0` comparison. -/
theorem jsLenPos_gtZero {choices : Json} (h : jsLenPos (some choices) = true) :
    jsGtZero (jsLenVal choices) = true := by
  cases choices with
  | arr xs =>
    have hx : xs.length ≠ 0 := by simpa [jsLenPos, jsLen] using h
    simp only [jsLenVal, jsGtZero, decide_eq_true_eq]
    omega
  | str s =>
    have hx : s.length ≠ 0 := by simpa [jsLenPos, jsLen] using h
    simp only [jsLenVal, jsGtZero, decide_eq_true_eq]
    omega
  | null => simp [jsLenPos, jsLen] at h
  | bool b => simp [jsLenPos, jsLen] at h
  | num n => simp [jsLenPos, jsLen] at h
  | obj fields => simp [jsLenPos, jsLen] at h

/-- The conservative index agrees with the faithful one on arrays and
strings. -/
theorem jsIndex_indexVal {choices c0 : Json} (h : jsIndex choices 0 = some c0) :
    jsIndexVal choices 0 = some c0 := by
  cases choices <;> simp_all [jsIndex, jsIndexVal]

/-- The two system prompts are distinct strings. -/
theorem systemPrompts_distinct : systemPromptChinese ≠ systemPromptNonChinese := by
  decide

/-- A disabled `handleClickOutside` is the identity. -/
theorem hco_disabled (ev : ClickEvent) (s : UiState) :
    handleClickOutside false ev s = s := rfl

/-- While the processing ref is set, `handleClickOutside` is the identity. -/
theorem hco_ignored (enabled : Bool) (ev : ClickEvent) (s : UiState)
    (h : s.outsideClickProcessing = true) :
    handleClickOutside enabled ev s = s := by
  cases enabled
  · rfl
  · simp [handleClickOutside, h]

/-- An enabled `handleClickOutside` leaves the processing ref set. -/
theorem hco_sets_flag (ev : ClickEvent) (s : UiState) :
    (handleClickOutside true ev s).outsideClickProcessing = true := by
  cases h : s.outsideClickProcessing
  · simp only [handleClickOutside, h]
    repeat' split
    all_goals simp_all
  · simp [handleClickOutside, h]

/-- Folding further outside-click events over a state whose run is inert
(disabled, or mid-pass) changes nothing. -/
theorem hco_foldl_inert (enabled : Bool) (evs : List ClickEvent) :
    ∀ s : UiState, (enabled = false ∨ s.outsideClickProcessing = true) →
      List.foldl (fun st ev => handleClickOutside enabled ev st) s evs = s := by
  induction evs with
  | nil => intro s _; rfl
  | cons e es ih =>
    intro s h
    have hstep : handleClickOutside enabled e s = s := by
      rcases h with h | h
      · rw [h]; exact hco_disabled e s
      · exact hco_ignored enabled e s h
    simpa [List.foldl, hstep] using ih s h

/-!
## Claim theorems
-/

/-- Claim C3 (confirmed): for every request whose `apiConfig.apiKey` is empty
or absent, the relay handler returns `{success: false, error: "缺少API密钥配置"}`
and performs no outbound HTTP call (its list of issued requests is empty,
whatever `fetch` does). -/
theorem relay_missing_key_c3 (fetch : FetchRequest → FetchResult) (body : TranslateBody)
    (h : apiKeyMissing body.apiConfig = true) :
    relayHandler fetch body = (configErrorResponse, []) ∧
    configErrorResponse.success = false ∧
    configErrorResponse.error = some "缺少API密钥配置" ∧
    configErrorResponse.result = none := by
  refine ⟨?_, rfl, rfl, rfl⟩
  cases hc : body.apiConfig with
  | none => simp [relayHandler, hc]
  | some cfg =>
    cases hk : cfg.apiKey with
    | none => simp [relayHandler, hc, hk]
    | some k =>
      have hkk : (k == "") = true := by simpa [apiKeyMissing, hc, hk] using h
      simp [relayHandler, hc, hk, hkk]

/-- Witness for C3: the empty api key of the spec's example. -/
def c3Body : TranslateBody :=
  { text := "hi", apiConfig := some { apiKey := some "", apiUrl := none, model := none } }

/-- Witness for C3 at `c3Body`. -/
theorem relay_missing_key_c3_witness :
    apiKeyMissing c3Body.apiConfig = true ∧
    (relayHandler stubFetch c3Body = (configErrorResponse, []) ∧
     configErrorResponse.success = false ∧
     configErrorResponse.error = some "缺少API密钥配置" ∧
     configErrorResponse.result = none) :=
  ⟨rfl, relay_missing_key_c3 stubFetch c3Body rfl⟩

/-- Claim C5 (confirmed): the relay's script detection and the UI's are the
same function; a text is detected as Chinese exactly when it contains a
character of the CJK-ideograph range `一`–`龥` of the shared regex;
the relay's system-instruction choice and the UI's button label agree with
that detection for every input text. -/
theorem direction_agreement_c5 (text : String) :
    isChineseTextBg text = isChineseText text ∧
    ((∃ c ∈ text.data, 0x4e00 ≤ c.toNat ∧ c.toNat ≤ 0x9fa5) ↔ isChineseTextBg text = true) ∧
    (chooseSystemPrompt text = systemPromptChinese ↔ isChineseText text = true) ∧
    (buttonText text = "翻译为英文" ↔ isChineseText text = true) := by
  refine ⟨rfl, ?_, ?_, ?_⟩
  · simp [isChineseTextBg, List.any_eq_true]
  · cases h : isChineseText text with
    | false =>
      have hbg : isChineseTextBg text = false := h
      constructor
      · intro hEq
        simp [chooseSystemPrompt, hbg] at hEq
        exact absurd hEq.symm systemPrompts_distinct
      · intro hEq
        cases hEq
    | true =>
      have hbg : isChineseTextBg text = true := h
      simp [chooseSystemPrompt, hbg]
  · cases h : isChineseText text with
    | false =>
      constructor
      · intro hEq
        simp [buttonText, h] at hEq
      · intro hEq
        cases hEq
    | true => simp [buttonText, h]

/-- Claim C6 counterexample: from the `ResultVisible(loading)` sub-state with
a dragged position, the close action leaves `position` at its dragged value
(not the initial default `{x := 0, y := 0}`) and leaves `loading` set, so not
every `PopupUIState` field is reset to its initial default. -/
def c6State : UiState :=
  { initialUiState with
    isResultVisible := true
    isLoading := true
    position := { x := 5, y := 7 } }

/-- Counterexample theorem for C6. -/
theorem close_not_full_reset_c6_counterexample :
    (closeResult c6State).position ≠ initialUiState.position ∧
    (closeResult c6State).isLoading ≠ initialUiState.isLoading := by
  constructor
  · intro h
    have : (5 : Int) = 0 := congrArg PopupPos.x h
    exact absurd this (by decide)
  · intro h
    exact absurd h (by decide)

/-- Claim C6 (amended): the close action unconditionally resets the popup
visibility, `translatedText`, `error`, the translating flag, `copied` and
both expand flags to their initial defaults, from any state; it leaves
`position` and `loading` (and the captured selection) unchanged — `loading`
is cleared only when the in-flight request settles. -/
theorem close_resets_c6_amended (s : UiState) :
    (closeResult s).isResultVisible = false ∧
    (closeResult s).translatedText = Json.str "" ∧
    (closeResult s).error = none ∧
    (closeResult s).isTranslating = false ∧
    (closeResult s).copied = false ∧
    (closeResult s).expandSource = false ∧
    (closeResult s).expandTranslation = false ∧
    (closeResult s).position = s.position ∧
    (closeResult s).isLoading = s.isLoading ∧
    (closeResult s).selectedText = s.selectedText ∧
    (closeResult s).isButtonVisible = s.isButtonVisible :=
  ⟨rfl, rfl, rfl, rfl, rfl, rfl, rfl, rfl, rfl, rfl, rfl⟩

/-- Claim C9 (confirmed): running the effect with the feature disabled
detaches the listeners and clears the button-visible, result-visible and
translating flags, and the component then renders nothing; re-running the
effect enabled reinstalls the listeners with the machine in `Idle`. -/
theorem disable_enable_c9 (s : UiState) :
    rendersNothing false (applyEnabledEffect false s) = true ∧
    (applyEnabledEffect false s).listenersAttached = false ∧
    (applyEnabledEffect false s).isButtonVisible = false ∧
    (applyEnabledEffect false s).isResultVisible = false ∧
    (applyEnabledEffect false s).isTranslating = false ∧
    (applyEnabledEffect true (applyEnabledEffect false s)).listenersAttached = true ∧
    isIdle (applyEnabledEffect true (applyEnabledEffect false s)) = true :=
  ⟨rfl, rfl, rfl, rfl, rfl, rfl, rfl⟩

/-- The state after the popup was opened for the selection `"hello"` and
then closed while the relay call was still in flight. -/
def c1AfterClose : UiState :=
  closeResult (handleTranslate { initialUiState with selectedText := "hello", isButtonVisible := true })

/-- A late-arriving successful relay response. -/
def c1StaleResponse : RelayResponse :=
  { success := true, result := some (Json.str "你好"), error := none }

/-- Claim C1 counterexample: after the close action, the continuation of the
still-pending `translateText` call writes the resolved translation into
`translatedText` — it does not stay reset to `""`, so the source does not
discard the stale result. -/
theorem stale_result_c1_counterexample :
    (translateTextResolve c1StaleResponse c1AfterClose).translatedText = Json.str "你好" ∧
    Json.str "你好" ≠ Json.str "" := by
  refine ⟨rfl, ?_⟩
  intro h
  simp at h

/-- Claim C1 (amended): the source has no guard tying a resolving relay call
to the popup that issued it: after the close action, a later resolution with
a truthy result overwrites the reset `translatedText` with the stale result
(and clears `isLoading`); only because `closeResult` left `isResultVisible`
false is the stale text not rendered. -/
theorem stale_result_applied_c1_amended (s : UiState) (r : Json) (hr : jsTruthy r = true) :
    (translateTextResolve { success := true, result := some r, error := none } (closeResult s)).translatedText = r ∧
    (translateTextResolve { success := true, result := some r, error := none } (closeResult s)).isResultVisible = false ∧
    (translateTextResolve { success := true, result := some r, error := none } (closeResult s)).isLoading = false := by
  simp [translateTextResolve, closeResult, hr]

/-- Witness for the amended C1 at a concrete state and result. -/
theorem stale_result_applied_c1_amended_witness :
    jsTruthy (Json.str "你好") = true ∧
    ((translateTextResolve { success := true, result := some (Json.str "你好"), error := none } (closeResult c1AfterClose)).translatedText = Json.str "你好" ∧
     (translateTextResolve { success := true, result := some (Json.str "你好"), error := none } (closeResult c1AfterClose)).isResultVisible = false ∧
     (translateTextResolve { success := true, result := some (Json.str "你好"), error := none } (closeResult c1AfterClose)).isLoading = false) :=
  ⟨rfl, stale_result_applied_c1_amended c1AfterClose (Json.str "你好") rfl⟩

/-- Exclusivity of `relayProcess` outcomes. -/
theorem relayProcess_exclusive (r : FetchResult) :
    ((relayProcess r).success = true ∧ ((relayProcess r).result).isSome = true ∧
      (relayProcess r).error = none) ∨
    ((relayProcess r).success = false ∧ ((relayProcess r).error).isSome = true ∧
      (relayProcess r).result = none) := by
  rcases r with ⟨ok, st, body⟩
  cases ok with
  | false =>
    cases body with
    | none => simp [relayProcess]
    | some errorData => cases hn : jsIsNull errorData <;> simp [relayProcess, hn]
  | true =>
    cases body with
    | none => simp [relayProcess]
    | some data =>
      cases hx : extract2xx data with
      | ok t => simp [relayProcess, hx]
      | error m => simp [relayProcess, hx]

/-- Claim C7 (confirmed): for every fetch behaviour and request body, the
relay's response carries exactly one meaningful payload — success with a
result and no error, or failure with an error and no result. -/
theorem exactly_one_payload_c7 (fetch : FetchRequest → FetchResult) (body : TranslateBody) :
    ((relayHandler fetch body).1.success = true ∧
      ((relayHandler fetch body).1.result).isSome = true ∧
      (relayHandler fetch body).1.error = none) ∨
    ((relayHandler fetch body).1.success = false ∧
      ((relayHandler fetch body).1.error).isSome = true ∧
      (relayHandler fetch body).1.result = none) := by
  rcases body with ⟨text, apiConfig⟩
  cases apiConfig with
  | none => right; exact ⟨rfl, rfl, rfl⟩
  | some cfg =>
    cases hk : cfg.apiKey with
    | none => right; simp [relayHandler, hk, configErrorResponse]
    | some k =>
      cases hke : k == "" with
      | true => right; simp [relayHandler, hk, hke, configErrorResponse]
      | false =>
        have := relayProcess_exclusive (fetch (buildFetchRequest text cfg k))
        simpa [relayHandler, hk, hke] using this

/-- Claim C8 (confirmed): outside-click handling is idempotent under rapid
repeated events — any event arriving while the processing ref is set is a
no-op; a whole burst of events starting from a quiescent state effects
exactly what its first event effects (at most one transition); and the
scheduled release step clears the ref again. -/
theorem outside_click_once_c8 (enabled : Bool) (e : ClickEvent) (evs : List ClickEvent)
    (s s' : UiState) (hbusy : s'.outsideClickProcessing = true) :
    handleClickOutside enabled e s' = s' ∧
    List.foldl (fun st ev => handleClickOutside enabled ev st) s (e :: evs) =
      handleClickOutside enabled e s ∧
    (releaseOutsideClickFlag (handleClickOutside enabled e s)).outsideClickProcessing = false := by
  refine ⟨hco_ignored enabled e s' hbusy, ?_, rfl⟩
  have hrest : List.foldl (fun st ev => handleClickOutside enabled ev st)
      (handleClickOutside enabled e s) evs = handleClickOutside enabled e s := by
    apply hco_foldl_inert
    cases enabled
    · exact Or.inl rfl
    · exact Or.inr (hco_sets_flag e s)
  simpa [List.foldl] using hrest

/-- A click event and a mid-pass state for the C8 witness. -/
def c8Event : ClickEvent := { pathHitsButton := false, selectionText := "" }

/-- A state whose outside-click pass is in flight. -/
def c8Busy : UiState := { initialUiState with outsideClickProcessing := true }

/-- Witness for C8 at a concrete burst of three events. -/
theorem outside_click_once_c8_witness :
    c8Busy.outsideClickProcessing = true ∧
    (handleClickOutside true c8Event c8Busy = c8Busy ∧
     List.foldl (fun st ev => handleClickOutside true ev st) initialUiState
       (c8Event :: [c8Event, c8Event]) = handleClickOutside true c8Event initialUiState ∧
     (releaseOutsideClickFlag (handleClickOutside true c8Event initialUiState)).outsideClickProcessing = false) :=
  ⟨rfl, outside_click_once_c8 true c8Event [c8Event, c8Event] initialUiState c8Busy rfl⟩

/-- The 2xx response body whose content string is `{"translation":""}`:
valid JSON whose object carries a `translation` field holding `""`. -/
def c2Content : String := "\x7b\"translation\":\"\"\x7d"

/-- The response body embedding `c2Content` at `choices[0].message.content`. -/
def c2Data : Json :=
  Json.obj [("choices", Json.arr [Json.obj [("message", Json.obj [("content", Json.str c2Content)])]])]

/-- A 2xx fetch outcome carrying `c2Data`. -/
def c2Fetch : FetchResult := { ok := true, statusText := "OK", body := some c2Data }

/-- Claim C2 counterexample: the content string parses as JSON and the parsed
object contains a `translation` field (whose string is `""`), yet the relay's
result is the content string itself, not that field's string — the source
tests the field with JavaScript truthiness, so a present-but-empty
`translation` falls back to the content. -/
theorem content_extraction_c2_counterexample :
    jsonParse c2Content = some (Json.obj [("translation", Json.str "")]) ∧
    (relayHandler (fun _ => c2Fetch) validBody).1.success = true ∧
    (relayHandler (fun _ => c2Fetch) validBody).1.result = some (Json.str c2Content) ∧
    ¬ (relayHandler (fun _ => c2Fetch) validBody).1.result = some (Json.str "") := by
  refine ⟨rfl, rfl, rfl, ?_⟩
  intro h
  rw [show (relayHandler (fun _ => c2Fetch) validBody).1.result = some (Json.str c2Content) from rfl] at h
  simp [c2Content] at h

/-- Claim C2 (amended): for every 2xx response passing the happy-path guard
whose first choice's message content is a string, the relay succeeds, and its
result is: the `translation` field's value when the *trimmed* content parses
as JSON and that field is truthy (in particular a non-empty string);
the trimmed content string when it parses as JSON without a truthy
`translation` field; and the trimmed content string when JSON parsing fails
(the fallback is non-fatal — success stays true). -/
theorem content_extraction_c2_amended (r : FetchResult) (body : TranslateBody)
    (cfg : ApiConfig) (key : String) (data : Json) (rawContent : String)
    (hcfg : body.apiConfig = some cfg) (hkey : cfg.apiKey = some key) (hne : key ≠ "")
    (hok : r.ok = true) (hbody : r.body = some data)
    (hpath : hasExpectedPath data = true)
    (hcontent : choiceContent data = some (Json.str rawContent)) :
    (relayHandler (fun _ => r) body).1.success = true ∧
    (∀ j t, jsonParse (jsTrim rawContent) = some j →
      jsGetField j "translation" = some t → jsTruthy t = true →
      (relayHandler (fun _ => r) body).1.result = some t) ∧
    (∀ j, jsonParse (jsTrim rawContent) = some j →
      optTruthy (jsGetField j "translation") = false →
      (relayHandler (fun _ => r) body).1.result = some (Json.str (jsTrim rawContent))) ∧
    (jsonParse (jsTrim rawContent) = none →
      (relayHandler (fun _ => r) body).1.result = some (Json.str (jsTrim rawContent))) := by
  have hkey' : (key == "") = false := by simpa using hne
  have hp : jsTruthy data = true ∧ optTruthy (jsGetField data "choices") = true ∧
      jsLenPos (jsGetField data "choices") = true ∧
      optTruthy ((jsGetField data "choices").bind (fun c => jsIndex c 0) |>.bind
        (fun c0 => jsGetField c0 "message")) = true ∧
      optTruthy (choiceContent data) = true := by
    simpa [hasExpectedPath, Bool.and_eq_true, and_assoc] using hpath
  obtain ⟨hd, hct, hlp, hmsg, hcont⟩ := hp
  cases hch : jsGetField data "choices" with
  | none => rw [hch] at hct; simp [optTruthy] at hct
  | some choices =>
  rw [hch] at hct hlp hmsg
  have hctT : jsTruthy choices = true := by simpa [optTruthy] using hct
  simp only [Option.some_bind] at hmsg
  cases hc0 : jsIndex choices 0 with
  | none => rw [hc0] at hmsg; simp [optTruthy] at hmsg
  | some c0 =>
  rw [hc0] at hmsg
  simp only [Option.some_bind] at hmsg
  cases hm : jsGetField c0 "message" with
  | none => rw [hm] at hmsg; simp [optTruthy] at hmsg
  | some message =>
  rw [hm] at hmsg
  have hmt : jsTruthy message = true := by simpa [optTruthy] using hmsg
  have hcon : jsGetField message "content" = some (Json.str rawContent) := by
    have h := hcontent
    simp only [choiceContent, hch, hc0, hm, Option.some_bind] at h
    exact h
  have hcontT : jsTruthy (Json.str rawContent) = true := by
    have h := hcont
    rw [hcontent] at h
    simpa [optTruthy] using h
  have hgt : jsGtZero (jsLenVal choices) = true := jsLenPos_gtZero hlp
  have hidx : jsIndexVal choices 0 = some c0 := jsIndex_indexVal hc0
  have hc0n : jsIsNull c0 = false := jsTruthy_not_null (jsGetField_some_truthy hm)
  have hext : extract2xx data =
      (match jsonParse (jsTrim rawContent) with
       | some jsonResponse =>
         if jsTruthy jsonResponse = false then Except.ok (Json.str (jsTrim rawContent))
         else
           match jsGetField jsonResponse "translation" with
           | some t =>
             if jsTruthy t then Except.ok t else Except.ok (Json.str (jsTrim rawContent))
           | none => Except.ok (Json.str (jsTrim rawContent))
       | none => Except.ok (Json.str (jsTrim rawContent))) := by
    simp [extract2xx, hd, hch, hctT, hgt, hidx, hc0n, hm, hmt, hcon, hcontT]
  have hhandler : (relayHandler (fun _ => r) body).1 =
      (match extract2xx data with
       | Except.ok t => { success := true, result := some t, error := none }
       | Except.error msg =>
         { success := false, result := none, error := some msg } : RelayResponse) := by
    simp [relayHandler, hcfg, hkey, hkey', relayProcess, hok, hbody]
  have hsucc : ∀ {v : Json}, extract2xx data = Except.ok v →
      (relayHandler (fun _ => r) body).1.result = some v ∧
      (relayHandler (fun _ => r) body).1.success = true := by
    intro v hv
    rw [hhandler, hv]
    exact ⟨rfl, rfl⟩
  have hok2 : ∃ v, extract2xx data = Except.ok v := by
    rw [hext]
    rcases jsonParse (jsTrim rawContent) with _ | j
    · exact ⟨_, rfl⟩
    · dsimp only
      split
      · exact ⟨_, rfl⟩
      · rcases jsGetField j "translation" with _ | t
        · exact ⟨_, rfl⟩
        · dsimp only
          split
          · exact ⟨_, rfl⟩
          · exact ⟨_, rfl⟩
  obtain ⟨v0, hv0⟩ := hok2
  refine ⟨(hsucc hv0).2, ?_, ?_, ?_⟩
  · intro j t hj ht htr
    have hjt : jsTruthy j = true := jsGetField_some_truthy ht
    have hx : extract2xx data = Except.ok t := by
      rw [hext]
      simp [hj, hjt, ht, htr]
    exact (hsucc hx).1
  · intro j hj hfalse
    have hx : extract2xx data = Except.ok (Json.str (jsTrim rawContent)) := by
      rw [hext]
      by_cases hjt : jsTruthy j = false
      · simp [hj, hjt]
      · cases hjf : jsGetField j "translation" with
        | none => simp [hj, hjt, hjf]
        | some t =>
          have htf : jsTruthy t = false := by simpa [optTruthy, hjf] using hfalse
          simp [hj, hjt, hjf, htf]
    exact (hsucc hx).1
  · intro hn
    have hx : extract2xx data = Except.ok (Json.str (jsTrim rawContent)) := by
      rw [hext]
      simp [hn]
    exact (hsucc hx).1

/-- The 2xx content string of the spec's happy-path example. -/
def c2wContent : String := "\x7b\"translation\":\"hello\"\x7d"

/-- Response body embedding `c2wContent`. -/
def c2wData : Json :=
  Json.obj [("choices", Json.arr [Json.obj [("message", Json.obj [("content", Json.str c2wContent)])]])]

/-- A 2xx fetch outcome carrying `c2wData`. -/
def c2wFetch : FetchResult := { ok := true, statusText := "OK", body := some c2wData }

/-- Witness for the amended C2 at the happy-path example. -/
theorem content_extraction_c2_amended_witness :
    ("key" : String) ≠ "" ∧
    ((relayHandler (fun _ => c2wFetch) validBody).1.success = true ∧
     (∀ j t, jsonParse (jsTrim c2wContent) = some j →
       jsGetField j "translation" = some t → jsTruthy t = true →
       (relayHandler (fun _ => c2wFetch) validBody).1.result = some t) ∧
     (∀ j, jsonParse (jsTrim c2wContent) = some j →
       optTruthy (jsGetField j "translation") = false →
       (relayHandler (fun _ => c2wFetch) validBody).1.result = some (Json.str (jsTrim c2wContent))) ∧
     (jsonParse (jsTrim c2wContent) = none →
       (relayHandler (fun _ => c2wFetch) validBody).1.result = some (Json.str (jsTrim c2wContent)))) :=
  ⟨by decide,
   content_extraction_c2_amended c2wFetch validBody validCfg "key" c2wData c2wContent
     rfl rfl (by decide) rfl rfl rfl rfl⟩

/-- The non-2xx fetch outcome whose JSON body is the value `null`. -/
def c4NullFetch : FetchResult :=
  { ok := false, statusText := "Unauthorized", body := some Json.null }

/-- Claim C4 counterexample: an HTTP 401 whose JSON error body is `null`
carries no provider message, so the claim requires the failure to carry the
HTTP status text (`API错误: Unauthorized`); but the source's unguarded
`errorData.error` read throws a `TypeError` before the template literal is
built, and the outer catch sends that `TypeError` message instead. -/
theorem api_error_c4_counterexample :
    optTruthy (errMessageChain Json.null) = false ∧
    (relayHandler (fun _ => c4NullFetch) validBody).1.success = false ∧
    (relayHandler (fun _ => c4NullFetch) validBody).1.error = some (typeErrorMessage "error") ∧
    ¬ (relayHandler (fun _ => c4NullFetch) validBody).1.error =
        some ("API错误: " ++ c4NullFetch.statusText) := by
  refine ⟨rfl, rfl, rfl, ?_⟩
  intro h
  rw [show (relayHandler (fun _ => c4NullFetch) validBody).1.error =
      some (typeErrorMessage "error") from rfl] at h
  exact absurd h (by decide)

/-- Claim C4 (amended): for every non-2xx HTTP response with a JSON error
body, the relay fails. When the body is not `null`, the failure message is
`API错误: ` followed by the provider's non-empty `error.message` when the
body carries one, and by the HTTP status text when it carries no truthy
`error.message`. When the body is the JSON value `null`, the unguarded
`errorData.error` read itself throws, and the failure message is the host's
`TypeError` message instead of the status text. -/
theorem api_error_c4_amended (r : FetchResult) (body : TranslateBody)
    (cfg : ApiConfig) (key : String) (errorData : Json)
    (hcfg : body.apiConfig = some cfg) (hkey : cfg.apiKey = some key) (hne : key ≠ "")
    (hok : r.ok = false) (hbody : r.body = some errorData) :
    (relayHandler (fun _ => r) body).1.success = false ∧
    (jsIsNull errorData = true →
      (relayHandler (fun _ => r) body).1.error = some (typeErrorMessage "error")) ∧
    (∀ m : String, jsIsNull errorData = false →
      errMessageChain errorData = some (Json.str m) → m ≠ "" →
      (relayHandler (fun _ => r) body).1.error = some ("API错误: " ++ m)) ∧
    (jsIsNull errorData = false → optTruthy (errMessageChain errorData) = false →
      (relayHandler (fun _ => r) body).1.error = some ("API错误: " ++ r.statusText)) := by
  have hkey' : (key == "") = false := by simpa using hne
  have hhandler : (relayHandler (fun _ => r) body).1 = relayProcess r := by
    simp [relayHandler, hcfg, hkey, hkey']
  rw [hhandler]
  refine ⟨?_, ?_, ?_, ?_⟩
  · cases hn : jsIsNull errorData <;> simp [relayProcess, hok, hbody, hn]
  · intro hn
    simp [relayProcess, hok, hbody, hn]
  · intro m hn hm hmne
    have hmt : jsTruthy (Json.str m) = true := by simpa [jsTruthy] using hmne
    simp [relayProcess, hok, hbody, hn, hm, hmt, jsToString]
  · intro hn hfalse
    cases hm : errMessageChain errorData with
    | none => simp [relayProcess, hok, hbody, hn, hm]
    | some v =>
      have hvf : jsTruthy v = false := by simpa [optTruthy, hm] using hfalse
      simp [relayProcess, hok, hbody, hn, hm, hvf]

/-- The spec's HTTP 401 error body `{"error":{"message":"invalid key"}}`. -/
def c4Data : Json := Json.obj [("error", Json.obj [("message", Json.str "invalid key")])]

/-- The 401 fetch outcome carrying `c4Data`. -/
def c4Fetch : FetchResult := { ok := false, statusText := "Unauthorized", body := some c4Data }

/-- Witness for the amended C4 at the spec's 401 example (where the
handler's concrete error is `API错误: invalid key`). -/
theorem api_error_c4_amended_witness :
    ("key" : String) ≠ "" ∧
    errMessageChain c4Data = some (Json.str "invalid key") ∧
    (relayHandler (fun _ => c4Fetch) validBody).1.error = some "API错误: invalid key" ∧
    ((relayHandler (fun _ => c4Fetch) validBody).1.success = false ∧
     (jsIsNull c4Data = true →
       (relayHandler (fun _ => c4Fetch) validBody).1.error = some (typeErrorMessage "error")) ∧
     (∀ m : String, jsIsNull c4Data = false →
       errMessageChain c4Data = some (Json.str m) → m ≠ "" →
       (relayHandler (fun _ => c4Fetch) validBody).1.error = some ("API错误: " ++ m)) ∧
     (jsIsNull c4Data = false → optTruthy (errMessageChain c4Data) = false →
       (relayHandler (fun _ => c4Fetch) validBody).1.error =
         some ("API错误: " ++ c4Fetch.statusText))) :=
  ⟨by decide, rfl, rfl,
   api_error_c4_amended c4Fetch validBody validCfg "key" c4Data rfl rfl (by decide) rfl rfl⟩

